import Mathlib

/-!
Verification of the RandomWalk Streamlit application (`src/app.py`).

The development shallowly embeds the two components the specification
covers: the deterministic random-walk generator (lines 71-93) and the
admin-gated append-only download log (`log_download`, lines 17-29, and the
admin view block, lines 170-192), plus the title/filename derivation
(lines 107-109).

Modelling conventions:
- Python strings are Lean `String`s; `str.strip()` / `str.split()` /
  `sep.join(...)` are embedded as `pyStrip` / `pySplit` / `pyJoin` over the
  ASCII whitespace set Python uses for these operations.
- The CSV log file is modelled at row granularity as
  `Option (List (List String))` — `none` when the file does not exist —
  with the byte-level serialisation of `csv.writer` (comma-separated
  fields, minimal quoting, `\r\n` terminator) given by `storeBytes`.
- `numpy`'s global random state is modelled by an injectable random
  source `NormalRNG` (a seeding function plus a stateful `normal mu sigma`
  sampler, as called by `np.random.normal(0, 2)`); the generator threads
  this state explicitly, reseeding with 42 exactly as the code does.
- Python exceptions escaping `log_download` are modelled with `Except`.
-/

namespace RandomWalk

/-- Whitespace characters recognised by Python's `str.strip()` and
`str.split()` (the ASCII subset, which covers every string this
application manipulates). -/
def pyIsSpace (c : Char) : Bool :=
  c = ' ' || c = '\t' || c = '\n' || c = '\r' || c = '\x0b' || c = '\x0c'

/-- Python `str.strip()` on the character list: drop leading and trailing
whitespace. -/
def pyStripList (l : List Char) : List Char :=
  ((l.dropWhile pyIsSpace).reverse.dropWhile pyIsSpace).reverse

/-- Python `str.strip()`. -/
def pyStrip (s : String) : String :=
  String.mk (pyStripList s.data)

/-- Core of Python `str.split()` (no argument form): accumulate the
current word in `acc` (reversed) and emit maximal runs of
non-whitespace characters. -/
def pySplitAux : List Char → List Char → List (List Char)
  | [], acc => if acc = [] then [] else [acc.reverse]
  | c :: cs, acc =>
    if pyIsSpace c then
      if acc = [] then pySplitAux cs []
      else acc.reverse :: pySplitAux cs []
    else pySplitAux cs (c :: acc)

/-- Python `str.split()` with no arguments: the list of whitespace-run
separated words, with no empty words and outer whitespace ignored. -/
def pySplit (s : String) : List String :=
  (pySplitAux s.data []).map String.mk

/-- Python `sep.join(xs)`. -/
def pyJoin (sep : String) : List String → String
  | [] => ""
  | x :: xs => xs.foldl (fun a b => a ++ sep ++ b) x

/-- Line 108: `cleaned_title = document_title.strip() or "Random Walk Report"`. -/
def cleanedTitle (document_title : String) : String :=
  let s := pyStrip document_title
  if s = "" then "Random Walk Report" else s

/-- Line 109: `download_name = "_".join(cleaned_title.split()) or "random_walk_report"`. -/
def downloadName (document_title : String) : String :=
  let j := pyJoin "_" (pySplit (cleanedTitle document_title))
  if j = "" then "random_walk_report" else j

/-! ## Download log (`log_download`, lines 17-29) -/

/-- One CSV row, as the list of its fields. -/
abbrev Row := List String

/-- The log store: `none` when `download_logs.csv` does not exist,
otherwise the list of rows the file holds. -/
abbrev Store := Option (List Row)

/-- The header row written on first use: `["timestamp", "name", "title"]`. -/
def headerRow : Row := ["timestamp", "name", "title"]

/-- Lines 19-29: `log_download(name, title)`, with the wall clock passed
in as `ts` (the code uses `datetime.utcnow().isoformat()`). A blank
(whitespace-only) name returns early; otherwise the header is written
first when the file does not yet exist, and one data row
`[ts, name.strip(), title]` is appended. -/
def log_download (store : Store) (ts name title : String) : Store :=
  let cleaned_name := pyStrip name
  if cleaned_name = "" then store
  else
    let base : List Row :=
      match store with
      | none => [headerRow]
      | some rows => rows
    some (base ++ [[ts, cleaned_name, title]])

/-- A sequence of `log_download` calls, each `(ts, name, title)`. -/
def appendMany (store : Store) (calls : List (String × String × String)) : Store :=
  calls.foldl (fun st c => log_download st c.1 c.2.1 c.2.2) store

/-- The data row a call `(ts, name, title)` produces. -/
def dataRow (c : String × String × String) : Row :=
  [c.1, pyStrip c.2.1, c.2.2]

/-- One serialised field of `csv.writer` (default dialect: minimal
quoting — quote a field containing a delimiter, quote char or newline,
doubling embedded quote chars). -/
def csvField (f : String) : String :=
  if f.data.any (fun c => c = ',' || c = '\"' || c = '\n' || c = '\r') then
    "\"" ++ String.mk (f.data.flatMap (fun c => if c = '\"' then ['\"', '\"'] else [c])) ++ "\""
  else f

/-- One serialised row of `csv.writer` (default `\r\n` terminator; the
file is opened with `newline=""` so the terminator reaches the file
verbatim). -/
def rowBytes (r : Row) : String :=
  pyJoin "," (r.map csvField) ++ "\r\n"

/-- Byte content of a present log file. -/
def storeBytes : List Row → String
  | [] => ""
  | r :: rs => rowBytes r ++ storeBytes rs

/-- Line 29 with a fallible storage backend: `wfail = some e` means the
underlying open/write raises `e`. `log_download` installs no handler, so
the exception propagates; the blank-name early return (lines 20-21)
never touches storage. -/
def log_downloadE (wfail : Option String) (store : Store) (ts name title : String) :
    Except String Store :=
  let cleaned_name := pyStrip name
  if cleaned_name = "" then .ok store
  else
    match wfail with
    | some e => .error e
    | none => .ok (log_download store ts name title)

/-- Line 148: the download button's `on_click` runs
`log_download(downloader_name, cleaned_title)`. -/
def downloadClick (store : Store) (ts downloader_name document_title : String) : Store :=
  log_download store ts downloader_name (cleanedTitle document_title)

/-! ## Admin view (lines 170-192) -/

/-- Truthiness of the `ADMIN_TOKEN` configuration value as tested by
`if not ADMIN_TOKEN:` — `os.getenv` yields `None` when unset, and the
empty string is also falsy. -/
def tokenUnset : Option String → Bool
  | none => true
  | some s => s == ""

/-- What the admin block renders: nothing, the disabled-state warning,
the unauthorized error, the full log dataframe plus its bulk-download
button, or the empty-state info notice. -/
inductive AdminView where
  | hidden
  | disabledNotice
  | unauthorizedError
  | logView (rows : List Row)
  | emptyNotice
  deriving Repr, DecidableEq

/-- Lines 175-192 with the request-derived values precomputed: the
ordered cascade `if is_admin` / `if not ADMIN_TOKEN` /
`elif provided_token != ADMIN_TOKEN` / `else` with the
`LOG_PATH.exists()` split. -/
def adminGate (is_admin : Bool) (provided : String) (cfg : Option String)
    (store : Store) : AdminView :=
  if !is_admin then .hidden
  else if tokenUnset cfg then .disabledNotice
  else if provided != cfg.getD "" then .unauthorizedError
  else
    match store with
    | some rows => .logView rows
    | none => .emptyNotice

/-- The log rows an `AdminView` exposes (the dataframe of line 184). -/
def revealedRows : AdminView → Option (List Row)
  | .logView rows => some rows
  | _ => none

/-- Whether the view offers the bulk `Download log CSV` button
(lines 185-190). -/
def bulkDownloadOffered : AdminView → Bool
  | .logView _ => true
  | _ => false

/-- Query parameters, keyed by name; the stored value is the first
element of the value list (`st.experimental_get_query_params` maps each
present key to a non-empty list and the code indexes `[0]`). -/
abbrev Params := List (String × String)

/-- Lookup with Python's `dict.get(key, default)` then `[0]`. -/
def pGet (params : Params) (k d : String) : String :=
  match params.find? (fun kv => kv.1 == k) with
  | some kv => kv.2
  | none => d

/-- Line 172: `is_admin = params.get("admin", ["0"])[0] == "1"`. -/
def is_admin (params : Params) : Bool :=
  pGet params "admin" "0" == "1"

/-- Line 173: `provided_token = params.get("token", [""])[0]`. -/
def provided_token (params : Params) : String :=
  pGet params "token" ""

/-- The whole admin block as a function of the request parameters. -/
def adminViewOf (params : Params) (cfg : Option String) (store : Store) : AdminView :=
  adminGate (is_admin params) (provided_token params) cfg store

/-- Python truthiness of a string: non-empty. -/
def pyTruthy (s : String) : Bool := s != ""

/-! ## Generator (lines 71-93) -/

/-- An injectable normal random source standing for `numpy`'s global
random state: `seedFn n` is the state `np.random.seed(n)` installs, and
`normal mu sigma s` is the draw and successor state of
`np.random.normal(mu, sigma)` at state `s`. Draws are modelled as exact
rationals. -/
structure NormalRNG where
  State : Type
  seedFn : Nat → State
  normal : ℚ → ℚ → State → ℚ × State

/-- Take `n` successive draws of `np.random.normal(0, 2)`, threading the
state (the loop body of lines 83-86). -/
def drawN (rng : NormalRNG) : Nat → rng.State → List ℚ × rng.State
  | 0, s => ([], s)
  | n + 1, s =>
    let (x, s1) := rng.normal 0 2 s
    let (xs, s2) := drawN rng n s1
    (x :: xs, s2)

/-- Lines 82-86: `price = [100]` then fifteen times
`price.append(price[-1] + change)`; `buildPrices p cs` is the price list
produced from start `p` and the changes `cs`. -/
def buildPrices : ℚ → List ℚ → List ℚ
  | p, [] => [p]
  | p, c :: cs => p :: buildPrices (p + c) cs

/-- Lines 76-91: the default random-walk generation block. Takes the
incoming global random state `g`, which `np.random.seed(42)` immediately
replaces; returns the `(Time, Price)` series of the dataframe together
with the outgoing global state. -/
def generate (rng : NormalRNG) (g : rng.State) : List (Nat × ℚ) × rng.State :=
  let _ := g
  let s0 := rng.seedFn 42
  let (changes, s1) := drawN rng 15 s0
  let time := List.range 16
  (time.zip (buildPrices 100 changes), s1)

/-- The fifteen noise draws the seeded generator yields: the exact
sequence any run of the generation block consumes. -/
def seededNoise (rng : NormalRNG) : List ℚ :=
  (drawN rng 15 (rng.seedFn 42)).1

/-- A concrete random source used to instantiate witnesses: state is a
counter, and every draw of `normal mu sigma` is the value `sigma`. -/
def demoRNG : NormalRNG where
  State := Nat
  seedFn := fun n => n
  normal := fun _ sigma s => (sigma, s + 1)

/-! ## Helper lemmas -/

theorem string_mk_eq_empty (l : List Char) : String.mk l = "" ↔ l = [] := by
  constructor
  · intro h
    have := congrArg String.data h
    simpa using this
  · intro h
    simp [h]

theorem string_append_ne_empty_left (a b : String) (h : a ≠ "") : a ++ b ≠ "" := by
  intro hab
  apply h
  have : (a ++ b).data = a.data ++ b.data := by
    simp
  rw [hab] at this
  have ha : a.data = [] := by
    have := List.append_eq_nil.mp this.symm
    exact this.1
  cases a
  simp [string_mk_eq_empty] at *
  exact ha

theorem pyJoin_foldl_ne_empty (sep : String) :
    ∀ (xs : List String) (a : String), a ≠ "" →
      xs.foldl (fun a b => a ++ sep ++ b) a ≠ "" := by
  intro xs
  induction xs with
  | nil => intro a ha; simpa using ha
  | cons x xs ih =>
    intro a ha
    simp only [List.foldl_cons]
    exact ih _ (string_append_ne_empty_left _ _ (string_append_ne_empty_left _ _ ha))

theorem pyJoin_cons_ne_empty (sep x : String) (xs : List String) (h : x ≠ "") :
    pyJoin sep (x :: xs) ≠ "" := by
  simpa [pyJoin] using pyJoin_foldl_ne_empty sep xs x h

theorem pySplitAux_mem_ne_nil :
    ∀ (l acc : List Char) (w : List Char), w ∈ pySplitAux l acc → w ≠ [] := by
  intro l
  induction l with
  | nil =>
    intro acc w hw
    by_cases hacc : acc = []
    · simp [pySplitAux, hacc] at hw
    · simp [pySplitAux, hacc] at hw
      subst hw
      simpa using hacc
  | cons c cs ih =>
    intro acc w hw
    by_cases hc : pyIsSpace c
    · by_cases hacc : acc = []
      · rw [pySplitAux, if_pos hc, if_pos hacc] at hw
        exact ih [] w hw
      · rw [pySplitAux, if_pos hc, if_neg hacc] at hw
        rcases List.mem_cons.mp hw with h | h
        · subst h; simpa using hacc
        · exact ih [] w h
    · rw [pySplitAux, if_neg hc] at hw
      exact ih (c :: acc) w hw

theorem pySplitAux_acc_ne :
    ∀ (l acc : List Char), acc ≠ [] → pySplitAux l acc ≠ [] := by
  intro l
  induction l with
  | nil =>
    intro acc hacc
    simp [pySplitAux, hacc]
  | cons c cs ih =>
    intro acc hacc
    by_cases hc : pyIsSpace c
    · rw [pySplitAux, if_pos hc, if_neg hacc]
      simp
    · rw [pySplitAux, if_neg hc]
      exact ih (c :: acc) (by simp)

theorem pySplitAux_any :
    ∀ l : List Char, l.any (fun c => !pyIsSpace c) = true → pySplitAux l [] ≠ [] := by
  intro l
  induction l with
  | nil => intro h; simp at h
  | cons c cs ih =>
    intro h
    by_cases hc : pyIsSpace c
    · rw [pySplitAux, if_pos hc, if_pos rfl]
      apply ih
      simp only [List.any_cons, hc] at h
      simpa using h
    · rw [pySplitAux, if_neg hc]
      exact pySplitAux_acc_ne cs [c] (by simp)

theorem pySplitAux_allspace_acc :
    ∀ (l acc : List Char), (∀ c ∈ l, pyIsSpace c) →
      pySplitAux l acc = if acc = [] then [] else [acc.reverse] := by
  intro l
  induction l with
  | nil => intro acc _; rfl
  | cons c cs ih =>
    intro acc h
    have hc : pyIsSpace c := h c (by simp)
    have hcs : ∀ x ∈ cs, pyIsSpace x := fun x hx => h x (by simp [hx])
    by_cases hacc : acc = []
    · rw [pySplitAux, if_pos hc, if_pos hacc, ih [] hcs]
      simp [hacc]
    · rw [pySplitAux, if_pos hc, if_neg hacc, ih [] hcs]
      simp [hacc]

theorem pySplitAux_allspace (l : List Char) (h : ∀ c ∈ l, pyIsSpace c) :
    pySplitAux l [] = [] := by
  rw [pySplitAux_allspace_acc l [] h]
  rfl

theorem pySplitAux_append_space :
    ∀ (l rest acc : List Char), (∀ c ∈ rest, pyIsSpace c) →
      pySplitAux (l ++ rest) acc = pySplitAux l acc := by
  intro l
  induction l with
  | nil =>
    intro rest acc hrest
    rw [List.nil_append, pySplitAux_allspace_acc rest acc hrest]
    by_cases hacc : acc = []
    · simp [pySplitAux, hacc]
    · simp [pySplitAux, hacc]
  | cons c cs ih =>
    intro rest acc hrest
    by_cases hc : pyIsSpace c
    · by_cases hacc : acc = []
      · simp only [List.cons_append]
        rw [pySplitAux, if_pos hc, if_pos hacc]
        conv_rhs => rw [pySplitAux, if_pos hc, if_pos hacc]
        exact ih rest [] hrest
      · simp only [List.cons_append]
        rw [pySplitAux, if_pos hc, if_neg hacc]
        conv_rhs => rw [pySplitAux, if_pos hc, if_neg hacc]
        rw [ih rest [] hrest]
    · simp only [List.cons_append]
      rw [pySplitAux, if_neg hc]
      conv_rhs => rw [pySplitAux, if_neg hc]
      exact ih rest (c :: acc) hrest

theorem pySplitAux_dropWhile :
    ∀ l : List Char, pySplitAux (l.dropWhile pyIsSpace) [] = pySplitAux l [] := by
  intro l
  induction l with
  | nil => rfl
  | cons c cs ih =>
    by_cases hc : pyIsSpace c
    · rw [List.dropWhile_cons_of_pos (by simpa using hc), ih]
      rw [pySplitAux, if_pos hc, if_pos rfl]
    · rw [List.dropWhile_cons_of_neg (by simpa using hc)]

theorem pyStripList_split (l : List Char) :
    pySplitAux (pyStripList l) [] = pySplitAux l [] := by
  unfold pyStripList
  set m := l.dropWhile pyIsSpace with hm
  have hdecomp : (m.reverse.dropWhile pyIsSpace).reverse ++
      (m.reverse.takeWhile pyIsSpace).reverse = m := by
    rw [← List.reverse_append, List.takeWhile_append_dropWhile, List.reverse_reverse]
  have htail : ∀ c ∈ (m.reverse.takeWhile pyIsSpace).reverse, pyIsSpace c := by
    intro c hc
    rw [List.mem_reverse] at hc
    exact List.mem_takeWhile_imp hc
  calc pySplitAux ((m.reverse.dropWhile pyIsSpace).reverse) []
      = pySplitAux ((m.reverse.dropWhile pyIsSpace).reverse ++
          (m.reverse.takeWhile pyIsSpace).reverse) [] :=
        (pySplitAux_append_space _ _ [] htail).symm
    _ = pySplitAux m [] := by rw [hdecomp]
    _ = pySplitAux l [] := by rw [hm, pySplitAux_dropWhile]

theorem pySplit_strip (s : String) : pySplit (pyStrip s) = pySplit s := by
  simp only [pySplit, pyStrip]
  rw [pyStripList_split]

theorem pyStrip_ne_empty_any (s : String) (h : pyStrip s ≠ "") :
    s.data.any (fun c => !pyIsSpace c) = true := by
  by_contra hno
  apply h
  have hall : ∀ c ∈ s.data, pyIsSpace c := by
    intro c hc
    by_contra hcs
    exact hno (List.any_eq_true.mpr ⟨c, hc, by simpa using hcs⟩)
  have hdrop : s.data.dropWhile pyIsSpace = [] :=
    List.dropWhile_eq_nil_iff.mpr (fun c hc => by simpa using hall c hc)
  simp [pyStrip, pyStripList, hdrop]

theorem pySplit_ne_nil_of_strip (s : String) (h : pyStrip s ≠ "") :
    ∃ w ws, pySplit s = w :: ws ∧ w ≠ "" := by
  have hany := pyStrip_ne_empty_any s h
  have hne : pySplitAux s.data [] ≠ [] := pySplitAux_any s.data hany
  rcases hw : pySplitAux s.data [] with _ | ⟨w, ws⟩
  · exact absurd hw hne
  · refine ⟨String.mk w, ws.map String.mk, by simp [pySplit, hw], ?_⟩
    have hwne : w ≠ [] := pySplitAux_mem_ne_nil s.data [] w (by simp [hw])
    simpa [string_mk_eq_empty] using hwne

theorem string_append_assoc (a b c : String) : a ++ b ++ c = a ++ (b ++ c) := by
  apply String.ext
  simp [List.append_assoc]

theorem drawN_length (rng : NormalRNG) :
    ∀ (n : Nat) (s : rng.State), (drawN rng n s).1.length = n := by
  intro n
  induction n with
  | zero => intro s; rfl
  | succ n ih =>
    intro s
    rcases h1 : rng.normal 0 2 s with ⟨x, s1⟩
    rcases h2 : drawN rng n s1 with ⟨xs, s2⟩
    have hlen : xs.length = n := by
      have := ih s1
      rw [h2] at this
      simpa using this
    simp [drawN, h1, h2, hlen]

theorem buildPrices_length :
    ∀ (cs : List ℚ) (p : ℚ), (buildPrices p cs).length = cs.length + 1 := by
  intro cs
  induction cs with
  | nil => intro p; rfl
  | cons c cs ih =>
    intro p
    simp only [buildPrices, List.length_cons, ih (p + c)]

theorem buildPrices_head (p : ℚ) (cs : List ℚ) :
    (buildPrices p cs).get? 0 = some p := by
  cases cs <;> rfl

theorem buildPrices_step :
    ∀ (cs : List ℚ) (p : ℚ) (i : Nat) (c : ℚ), cs.get? i = some c →
      ∃ q, (buildPrices p cs).get? i = some q ∧
        (buildPrices p cs).get? (i + 1) = some (q + c) := by
  intro cs
  induction cs with
  | nil => intro p i c h; simp at h
  | cons c0 cs ih =>
    intro p i c h
    cases i with
    | zero =>
      simp only [List.get?] at h
      cases h
      refine ⟨p, rfl, ?_⟩
      show (buildPrices (p + c0) cs).get? 0 = some (p + c0)
      exact buildPrices_head _ _
    | succ j =>
      simp only [List.get?] at h
      rcases ih (p + c0) j c h with ⟨q, hq1, hq2⟩
      exact ⟨q, hq1, hq2⟩

theorem appendMany_some :
    ∀ (calls : List (String × String × String)) (rows : List Row),
      (∀ c ∈ calls, pyStrip c.2.1 ≠ "") →
      appendMany (some rows) calls = some (rows ++ calls.map dataRow) := by
  intro calls
  induction calls with
  | nil => intro rows _; simp [appendMany]
  | cons c cs ih =>
    intro rows h
    have hc : pyStrip c.2.1 ≠ "" := h c (by simp)
    have hcs : ∀ x ∈ cs, pyStrip x.2.1 ≠ "" := fun x hx => h x (by simp [hx])
    have hstep : log_download (some rows) c.1 c.2.1 c.2.2 = some (rows ++ [dataRow c]) := by
      simp [log_download, dataRow, hc]
    simp only [appendMany, List.foldl_cons]
    rw [hstep]
    have := ih (rows ++ [dataRow c]) hcs
    simp only [appendMany] at this
    rw [this]
    simp

theorem storeBytes_append :
    ∀ (rows : List Row) (r : Row),
      storeBytes (rows ++ [r]) = storeBytes rows ++ rowBytes r := by
  intro rows r
  induction rows with
  | nil => simp [storeBytes]
  | cons r0 rs ih =>
    show rowBytes r0 ++ storeBytes (rs ++ [r]) = rowBytes r0 ++ storeBytes rs ++ rowBytes r
    rw [ih, string_append_assoc]

/-! ## Claim theorems -/

/-- C1: the admin read gate on the three inputs (requested admin flag,
provided token, configured token) yields exactly the four ordered
outcomes: flag false → view hidden; flag true with unset/empty configured
token → disabled notice; flag true, token set, tokens differ →
unauthorized error; and when the flag is true and the tokens are exactly
equal the full LogStore is rendered with bulk download offered — and log
data is revealed only in that last case. -/
theorem admin_gate_policy (flag : Bool) (provided : String) (cfg : Option String)
    (store : Store) :
    (flag = false → adminGate flag provided cfg store = .hidden) ∧
    (flag = true → tokenUnset cfg = true →
      adminGate flag provided cfg store = .disabledNotice) ∧
    (flag = true → tokenUnset cfg = false → provided ≠ cfg.getD "" →
      adminGate flag provided cfg store = .unauthorizedError) ∧
    (flag = true → tokenUnset cfg = false → provided = cfg.getD "" →
      revealedRows (adminGate flag provided cfg store) = store ∧
      bulkDownloadOffered (adminGate flag provided cfg store) = store.isSome) ∧
    ((revealedRows (adminGate flag provided cfg store) ≠ none ∨
      bulkDownloadOffered (adminGate flag provided cfg store) = true) →
      flag = true ∧ tokenUnset cfg = false ∧ provided = cfg.getD "") := by
  refine ⟨?_, ?_, ?_, ?_, ?_⟩
  · intro h; subst h; simp [adminGate]
  · intro h hu; subst h; simp [adminGate, hu]
  · intro h hu hne; subst h; simp [adminGate, hu, hne]
  · intro h hu he; subst h
    cases store <;> simp [adminGate, hu, he, revealedRows, bulkDownloadOffered]
  · intro h
    cases flag
    · simp [adminGate, revealedRows, bulkDownloadOffered] at h
    · by_cases hu : tokenUnset cfg
      · simp [adminGate, hu, revealedRows, bulkDownloadOffered] at h
      · by_cases he : provided = cfg.getD ""
        · exact ⟨rfl, by simpa using hu, he⟩
        · simp [adminGate, hu, he, revealedRows, bulkDownloadOffered] at h

/-- Witness for C1: each of the four outcomes at concrete inputs. -/
theorem admin_gate_policy_witness :
    adminGate false "whatever" (some "secret123") (some [headerRow]) = .hidden ∧
    adminGate true "" none none = .disabledNotice ∧
    adminGate true "wrong" (some "secret123") (some [headerRow]) = .unauthorizedError ∧
    revealedRows (adminGate true "secret123" (some "secret123") (some [headerRow])) =
      some [headerRow] :=
  ⟨(admin_gate_policy false "whatever" (some "secret123") (some [headerRow])).1 rfl,
   (admin_gate_policy true "" none none).2.1 rfl rfl,
   (admin_gate_policy true "wrong" (some "secret123") (some [headerRow])).2.2.1 rfl rfl
     (by decide),
   ((admin_gate_policy true "secret123" (some "secret123") (some [headerRow])).2.2.2.1
     rfl rfl (by decide)).1⟩

/-- C2: the generation block, run from any incoming global random state,
returns a series of exactly 16 rows whose Time values are 0..15 in order,
whose Price column is `buildPrices 100` of the fifteen noise draws the
seeded generator produces with `normal 0 2`, so `Price[0] = 100` and
`Price[i+1] = Price[i] + noise_i`; it is a total function (no error
conditions). -/
theorem generator_output (rng : NormalRNG) (g : rng.State) :
    (generate rng g).1.length = 16 ∧
    (generate rng g).1.map Prod.fst = List.range 16 ∧
    (generate rng g).1.map Prod.snd = buildPrices 100 (seededNoise rng) ∧
    (seededNoise rng).length = 15 ∧
    (buildPrices 100 (seededNoise rng)).get? 0 = some 100 ∧
    (∀ i c, (seededNoise rng).get? i = some c →
      ∃ q, (buildPrices 100 (seededNoise rng)).get? i = some q ∧
        (buildPrices 100 (seededNoise rng)).get? (i + 1) = some (q + c)) := by
  rcases h : drawN rng 15 (rng.seedFn 42) with ⟨cs, s1⟩
  have hnoise : seededNoise rng = cs := by simp [seededNoise, h]
  have hgen : (generate rng g).1 = (List.range 16).zip (buildPrices 100 cs) := by
    simp [generate, h]
  have hcs : cs.length = 15 := by
    have := drawN_length rng 15 (rng.seedFn 42)
    rw [h] at this
    simpa using this
  have hbp : (buildPrices 100 cs).length = 16 := by
    rw [buildPrices_length, hcs]
  refine ⟨?_, ?_, ?_, ?_, ?_, ?_⟩
  · rw [hgen]; simp [hbp]
  · rw [hgen]; apply List.map_fst_zip; simp [hbp]
  · rw [hgen, hnoise]; apply List.map_snd_zip; simp [hbp]
  · rw [hnoise]; exact hcs
  · rw [hnoise]; exact buildPrices_head _ _
  · intro i c hic
    rw [hnoise] at hic ⊢
    exact buildPrices_step cs 100 i c hic

/-- Witness for C2: concrete shape and one recurrence step for the demo
random source. -/
theorem generator_output_witness :
    (generate demoRNG (7 : Nat)).1.length = 16 ∧
    (generate demoRNG (7 : Nat)).1.map Prod.fst = List.range 16 ∧
    (∃ q, (buildPrices 100 (seededNoise demoRNG)).get? 0 = some q ∧
      (buildPrices 100 (seededNoise demoRNG)).get? 1 = some (q + 2)) :=
  ⟨(generator_output demoRNG (7 : Nat)).1,
   (generator_output demoRNG (7 : Nat)).2.1,
   (generator_output demoRNG (7 : Nat)).2.2.2.2.2 0 2 rfl⟩

/-- C3: for a fixed seed the generation block is deterministic — two
independent invocations, from arbitrary and possibly different incoming
global random states, produce identical series (same Time values and the
same Price values, to full precision), because `np.random.seed(42)`
replaces the incoming state before any draw. -/
theorem generator_deterministic (rng : NormalRNG) (g g' : rng.State) :
    (generate rng g).1 = (generate rng g').1 := rfl

/-- C4: starting from an absent store, any non-empty sequence of
successful appends (names non-blank after trimming) yields exactly one
header row followed by the data rows in call order; zero appends leave
the store absent (header iff non-empty); each append on an existing store
only adds one row at the end; and at byte level appending a row extends
the file content purely at the end. -/
theorem log_append_structure (calls : List (String × String × String))
    (hvalid : ∀ c ∈ calls, pyStrip c.2.1 ≠ "") :
    (calls ≠ [] → appendMany none calls = some (headerRow :: calls.map dataRow)) ∧
    appendMany none [] = none ∧
    (∀ rows ts nm tt, pyStrip nm ≠ "" →
      log_download (some rows) ts nm tt = some (rows ++ [[ts, pyStrip nm, tt]])) ∧
    (∀ rows r, storeBytes (rows ++ [r]) = storeBytes rows ++ rowBytes r) := by
  refine ⟨?_, rfl, ?_, storeBytes_append⟩
  · intro hne
    rcases calls with _ | ⟨c, cs⟩
    · exact absurd rfl hne
    · have hc : pyStrip c.2.1 ≠ "" := hvalid c (by simp)
      have hcs : ∀ x ∈ cs, pyStrip x.2.1 ≠ "" := fun x hx => hvalid x (by simp [hx])
      have hstep : log_download none c.1 c.2.1 c.2.2 = some [headerRow, dataRow c] := by
        simp [log_download, dataRow, hc]
      simp only [appendMany, List.foldl_cons]
      rw [hstep]
      have := appendMany_some cs [headerRow, dataRow c] hcs
      simp only [appendMany] at this
      rw [this]
      simp
  · intro rows ts nm tt h
    simp [log_download, h]

/-- Witness for C4: one successful append from the absent store. -/
theorem log_append_structure_witness :
    appendMany none [("2024-01-01T00:00:00", "alice", "Random Walk Report")] =
      some (headerRow ::
        [("2024-01-01T00:00:00", "alice", "Random Walk Report")].map dataRow) :=
  (log_append_structure [("2024-01-01T00:00:00", "alice", "Random Walk Report")]
    (by decide)).1 (by decide)

/-- C5: appending with a name that is blank after trimming is a silent
no-op: the store is returned unchanged (absent stays absent, a present
file stays byte-identical), and in the fallible model the call returns
`ok` without touching storage even when the backend would fail. -/
theorem log_blank_name_noop (store : Store) (wfail : Option String) (ts nm tt : String)
    (h : pyStrip nm = "") :
    log_download store ts nm tt = store ∧
    log_downloadE wfail store ts nm tt = .ok store := by
  constructor
  · simp [log_download, h]
  · simp [log_downloadE, h]

/-- Witness for C5: a three-space name is a no-op on the absent store. -/
theorem log_blank_name_noop_witness :
    log_download none "t0" "   " "Title" = none ∧
    log_downloadE (some "boom") none "t0" "   " "Title" = .ok none :=
  log_blank_name_noop none (some "boom") "t0" "   " "Title" (by decide)

/-- C6: whenever a download click actually appends an entry, the recorded
name is the trimmed, non-blank downloader name and the recorded title is
`cleanedTitle` of the supplied title, which is never blank and equals the
fixed fallback string whenever the supplied title is blank. -/
theorem append_entry_invariant (store : Store) (ts nm t : String)
    (h : downloadClick store ts nm t ≠ store) :
    ∃ rows, downloadClick store ts nm t =
        some (rows ++ [[ts, pyStrip nm, cleanedTitle t]]) ∧
      pyStrip nm ≠ "" ∧ cleanedTitle t ≠ "" ∧
      (pyStrip t = "" → cleanedTitle t = "Random Walk Report") := by
  by_cases hnm : pyStrip nm = ""
  · exact absurd (by simp [downloadClick, log_download, hnm]) h
  · have hct : cleanedTitle t ≠ "" := by
      by_cases hts : pyStrip t = ""
      · simp [cleanedTitle, hts]
      · simp [cleanedTitle, hts]
    have hfallback : pyStrip t = "" → cleanedTitle t = "Random Walk Report" := by
      intro hts
      simp [cleanedTitle, hts]
    rcases store with _ | rows
    · exact ⟨[headerRow], by simp [downloadClick, log_download, hnm], hnm, hct, hfallback⟩
    · exact ⟨rows, by simp [downloadClick, log_download, hnm], hnm, hct, hfallback⟩

/-- Witness for C6: a click with name "alice" and a blank title. -/
theorem append_entry_invariant_witness :
    ∃ rows, downloadClick none "t0" "alice" "   " =
        some (rows ++ [["t0", pyStrip "alice", cleanedTitle "   "]]) ∧
      pyStrip "alice" ≠ "" ∧ cleanedTitle "   " ≠ "" ∧
      (pyStrip "   " = "" → cleanedTitle "   " = "Random Walk Report") :=
  append_entry_invariant none "t0" "alice" "   " (by decide)

/-- C7 counterexample: the claim reads the `admin` parameter as a truthy
flag, but the code compares it to the exact string "1": the value
`"true"` is truthy yet leaves the admin view hidden even with a correct
token configured. -/
theorem admin_truthy_counterexample :
    pyTruthy (pGet [("admin", "true")] "admin" "0") = true ∧
    is_admin [("admin", "true")] = false ∧
    adminViewOf [("admin", "true")] (some "secret123") (some [headerRow]) = .hidden := by
  decide

/-- C7 (amended): the admin section is entered (proceeding to the token
checks) iff the first value of the `admin` query parameter is exactly the
string "1"; when the parameter is absent it defaults to "0" and for any
other value the admin view stays hidden. -/
theorem admin_flag_exact_match (params : Params) (cfg : Option String) (store : Store) :
    (pGet params "admin" "0" = "1" → adminViewOf params cfg store ≠ .hidden) ∧
    (pGet params "admin" "0" ≠ "1" → adminViewOf params cfg store = .hidden) := by
  constructor
  · intro h
    have hadm : is_admin params = true := by simp [is_admin, h]
    unfold adminViewOf adminGate
    rw [hadm]
    by_cases hu : tokenUnset cfg
    · simp [hu]
    · by_cases he : provided_token params = cfg.getD ""
      · cases store <;> simp [hu, he]
      · simp [hu, he]
  · intro h
    have hadm : is_admin params = false := by
      simp [is_admin]
      exact h
    unfold adminViewOf adminGate
    rw [hadm]
    simp

/-- Witness for C7 (amended): `admin=yes` with the correct token still
hides the view; `admin=1` with the correct token does not. -/
theorem admin_flag_exact_match_witness :
    adminViewOf [("admin", "yes"), ("token", "secret123")] (some "secret123")
      (some [headerRow]) = .hidden ∧
    adminViewOf [("admin", "1"), ("token", "secret123")] (some "secret123")
      (some [headerRow]) ≠ .hidden :=
  ⟨(admin_flag_exact_match [("admin", "yes"), ("token", "secret123")] (some "secret123")
      (some [headerRow])).2 (by decide),
   (admin_flag_exact_match [("admin", "1"), ("token", "secret123")] (some "secret123")
      (some [headerRow])).1 (by decide)⟩

/-- C8: for a title that is non-blank after trimming, the download
filename base is the title's whitespace-run words joined by single
underscores; for a blank or all-whitespace title it falls back to the
fixed default base name. -/
theorem download_filename_derivation (t : String) :
    (pyStrip t ≠ "" → downloadName t = pyJoin "_" (pySplit t)) ∧
    (pyStrip t = "" → downloadName t = "Random_Walk_Report") := by
  constructor
  · intro h
    have hct : cleanedTitle t = pyStrip t := by simp [cleanedTitle, h]
    rcases pySplit_ne_nil_of_strip t h with ⟨w, ws, hsplit, hw⟩
    have hsp : pySplit (cleanedTitle t) = w :: ws := by
      rw [hct, pySplit_strip, hsplit]
    have hne : pyJoin "_" (pySplit (cleanedTitle t)) ≠ "" := by
      rw [hsp]
      exact pyJoin_cons_ne_empty _ _ _ hw
    show (if pyJoin "_" (pySplit (cleanedTitle t)) = "" then "random_walk_report"
      else pyJoin "_" (pySplit (cleanedTitle t))) = pyJoin "_" (pySplit t)
    rw [if_neg hne, hct, pySplit_strip]
  · intro h
    have hct : cleanedTitle t = "Random Walk Report" := by simp [cleanedTitle, h]
    show (if pyJoin "_" (pySplit (cleanedTitle t)) = "" then "random_walk_report"
      else pyJoin "_" (pySplit (cleanedTitle t))) = "Random_Walk_Report"
    rw [hct]
    decide

/-- Witness for C8: the spec's two concrete examples. -/
theorem download_filename_derivation_witness :
    downloadName "  My Report  " = "My_Report" ∧
    downloadName "   " = "Random_Walk_Report" :=
  ⟨((download_filename_derivation "  My Report  ").1 (by decide)).trans (by decide),
   (download_filename_derivation "   ").2 (by decide)⟩

/-- C9: with a non-blank name, a storage failure surfaces as the error
itself (not caught inside `log_download`); with no failure the append
succeeds; and an error result occurs only when the name was non-blank and
the backend failed — the only failure mode. -/
theorem append_error_propagation (wfail : Option String) (store : Store)
    (ts nm tt : String) :
    (∀ e, wfail = some e → pyStrip nm ≠ "" →
      log_downloadE wfail store ts nm tt = .error e) ∧
    (wfail = none →
      log_downloadE wfail store ts nm tt = .ok (log_download store ts nm tt)) ∧
    (∀ e, log_downloadE wfail store ts nm tt = .error e →
      pyStrip nm ≠ "" ∧ wfail = some e) := by
  refine ⟨?_, ?_, ?_⟩
  · intro e he hnm
    subst he
    simp [log_downloadE, hnm]
  · intro he
    subst he
    by_cases hnm : pyStrip nm = ""
    · simp [log_downloadE, log_download, hnm]
    · simp [log_downloadE, hnm]
  · intro e he
    by_cases hnm : pyStrip nm = ""
    · simp [log_downloadE, hnm] at he
    · rcases wfail with _ | e2
      · simp [log_downloadE, hnm] at he
      · simp [log_downloadE, hnm] at he
        exact ⟨hnm, by simp [he]⟩

/-- Witness for C9: a concrete write failure propagates verbatim. -/
theorem append_error_propagation_witness :
    log_downloadE (some "disk full") none "t0" "alice" "Report" = .error "disk full" :=
  (append_error_propagation (some "disk full") none "t0" "alice" "Report").1
    "disk full" rfl (by decide)

/-- C10: in the authorized state with no log file, the admin view renders
the empty-state info notice — it reveals no rows, offers no bulk
download, and does not fail. -/
theorem admin_empty_log_state (provided : String) (cfg : Option String)
    (h1 : tokenUnset cfg = false) (h2 : provided = cfg.getD "") :
    adminGate true provided cfg none = .emptyNotice ∧
    revealedRows (adminGate true provided cfg none) = none ∧
    bulkDownloadOffered (adminGate true provided cfg none) = false := by
  have hgate : adminGate true provided cfg none = .emptyNotice := by
    simp [adminGate, h1, h2]
  exact ⟨hgate, by rw [hgate]; rfl, by rw [hgate]; rfl⟩

/-- Witness for C10: correct token, absent log file. -/
theorem admin_empty_log_state_witness :
    adminGate true "secret123" (some "secret123") none = .emptyNotice :=
  (admin_empty_log_state "secret123" (some "secret123") (by decide) (by decide)).1

end RandomWalk
